import Mathlib

/-!
Shallow embedding of `src/HW1/blackjack.py` (`BlackjackEnv`).

Modelling conventions:
* A card rank is a `Nat` (Python ints; the real deck only holds 1..10).
* Hands and the shoe (`deck3`) are `List Nat`, as in the Python source.
* The mutating methods of `BlackjackEnv` become state-passing functions on
  an explicit `EnvState` record holding the fields the methods touch
  (`natural`, `player`, `dealer`, `deck3`).
* Randomness (`np_random.choice`) is modelled by a stream of pick values
  `picks : Nat → Nat`; a draw selects the element at index
  `picks i % length` of the current shoe, which ranges over exactly the
  choices the uniform sampler can make.
* Rewards are Python floats whose values here are always exact small
  binary fractions (-2, -1, 0, 1, 1.5, 2), modelled as `ℚ`.
* The dealer's `while` loop is written with fuel; 17 units of fuel are
  proved sufficient below (each drawn rank is ≥ 1), so the fueled
  function agrees with the Python loop on every state the loop
  terminates on.
* `step`'s `assert` is modelled by returning `Option`: `none` is the
  failed assertion, taken before any state change.
-/

namespace BlackjackEnv

/-- One 13-card deck of ranks: `self.deck = [1,...,9,10,10,10,10]`. -/
def deck : List Nat := [1, 2, 3, 4, 5, 6, 7, 8, 9, 10, 10, 10, 10]

/-- The fresh three-deck shoe `self.deck * 3`. -/
def deck3_fresh : List Nat := deck ++ deck ++ deck

/-- The method `usable_ace(hand)`: `1 in hand and sum(hand) + 10 <= 21`. -/
def usable_ace (hand : List Nat) : Bool :=
  decide (1 ∈ hand) && decide (hand.sum + 10 ≤ 21)

/-- The method `sum_hand(hand)`: `sum(hand) + 10` when a usable ace exists,
else `sum(hand)`. -/
def sum_hand (hand : List Nat) : Nat :=
  if usable_ace hand then hand.sum + 10 else hand.sum

/-- The method `is_bust(hand)`: `sum_hand(hand) > 21`. -/
def is_bust (hand : List Nat) : Bool :=
  decide (21 < sum_hand hand)

/-- The method `score(hand)`: `0 if is_bust(hand) else sum_hand(hand)`. -/
def score (hand : List Nat) : Nat :=
  if is_bust hand then 0 else sum_hand hand

/-- The method `cmp(a, b)`: `float(a > b) - float(a < b)`. -/
def cmp (a b : Nat) : ℚ :=
  (if b < a then (1 : ℚ) else 0) - (if a < b then (1 : ℚ) else 0)

/-- The method `is_natural(hand)`: `sorted(hand) == [1, 10]`. -/
def is_natural (hand : List Nat) : Bool :=
  hand.insertionSort (· ≤ ·) == [1, 10]

/-- The method `draw_card()`: replenish the shoe to `deck * 3` when at most
15 cards remain, then select one card (the pick value indexes the current
composition) and remove its first occurrence (`list.remove`). Returns the
card together with the shoe left behind. -/
def draw_card (deck3 : List Nat) (pick : Nat) : Nat × List Nat :=
  let d := if deck3.length ≤ 15 then deck3_fresh else deck3
  let card := d.getD (pick % d.length) 0
  (card, d.erase card)

/-- The dealer loop of `step`:
`while self.sum_hand(self.dealer) < 17: self.dealer.append(self.draw_card())`,
written with fuel. `i` is the position in the pick stream of the next draw.
Returns the final dealer hand and shoe. -/
def dealer_play (fuel : Nat) (dealer deck3 : List Nat) (picks : Nat → Nat)
    (i : Nat) : List Nat × List Nat :=
  match fuel with
  | 0 => (dealer, deck3)
  | Nat.succ f =>
    if sum_hand dealer < 17 then
      let r := draw_card deck3 (picks i)
      dealer_play f (dealer ++ [r.1]) r.2 picks (i + 1)
    else (dealer, deck3)

/-- The mutable fields of `BlackjackEnv` that the round logic reads or
writes: the `natural` payout flag and the `player`, `dealer`, `deck3`
lists. -/
structure EnvState where
  natural : Bool
  player : List Nat
  dealer : List Nat
  deck3 : List Nat
deriving Repr, DecidableEq

/-- The helper `_get_obs()`: `(sum_hand(player), dealer[0], usable_ace(player))`.
The dealer hand is nonempty in every reachable state; `headD` supplies a
default for the total function. -/
def get_obs (s : EnvState) : Nat × Nat × Bool :=
  (sum_hand s.player, s.dealer.headD 0, usable_ace s.player)

/-- The method `step(action)` as a state transformer. The Python `assert
self.action_space.contains(action)` (membership in `Discrete(3)`, i.e.
`0 ≤ action < 3`) becomes the outer guard: `none` models the assertion
failing before any mutation. On success the result is the new state, the
reward and the `done` flag; the returned observation of the source is
`get_obs` of the new state, and the `info` dict is always empty. -/
def step (s : EnvState) (action : Int) (picks : Nat → Nat) :
    Option (EnvState × ℚ × Bool) :=
  if 0 ≤ action ∧ action < 3 then
    if action = 1 then
      let r := draw_card s.deck3 (picks 0)
      let p2 := s.player ++ [r.1]
      if is_bust p2 then
        some ({ s with player := p2, deck3 := r.2 }, -1, true)
      else
        some ({ s with player := p2, deck3 := r.2 }, 0, false)
    else if action = 2 then
      let r := draw_card s.deck3 (picks 0)
      let p2 := s.player ++ [r.1]
      let dl := dealer_play 17 s.dealer r.2 picks 1
      some ({ s with player := p2, dealer := dl.1, deck3 := dl.2 },
        2 * cmp (score p2) (score dl.1), true)
    else
      let dl := dealer_play 17 s.dealer s.deck3 picks 0
      let r1 := cmp (score s.player) (score dl.1)
      let r2 := if s.natural = true ∧ is_natural s.player = true ∧ r1 = 1
        then (3 : ℚ) / 2 else r1
      some ({ s with dealer := dl.1, deck3 := dl.2 }, r2, true)
  else none

/-- The method `draw_hand()`: `[draw_card(), draw_card()]`, drawing first
the card at stream position `i`, then the one at `i + 1`. -/
def draw_hand (deck3 : List Nat) (picks : Nat → Nat) (i : Nat) :
    List Nat × List Nat :=
  let a := draw_card deck3 (picks i)
  let b := draw_card a.2 (picks (i + 1))
  ([a.1, b.1], b.2)

/-- The method `reset()` with no explicit state: deal a fresh two-card hand
to the player, then to the dealer. -/
def reset_fresh (s : EnvState) (picks : Nat → Nat) : EnvState :=
  let p := draw_hand s.deck3 picks 0
  let d := draw_hand p.2 picks 2
  { s with player := p.1, dealer := d.1, deck3 := d.2 }

/-- The method `reset(state)` with an explicit `[player, dealer, deck3]`
triple: adopt it verbatim. -/
def reset_with (s : EnvState) (st : List Nat × List Nat × List Nat) :
    EnvState :=
  { s with player := st.1, dealer := st.2.1, deck3 := st.2.2 }

/-- The method `get_state()`: `deepcopy([player, dealer, deck3])`. In the
value-semantics embedding the deep copy is the tuple of the three lists. -/
def get_state (s : EnvState) : List Nat × List Nat × List Nat :=
  (s.player, s.dealer, s.deck3)

/-- Repeated `draw_card` calls: fold a list of pick values through the
shoe, returning the final shoe composition. -/
def draw_seq (deck3 : List Nat) : List Nat → List Nat
  | [] => deck3
  | p :: ps => draw_seq (draw_card deck3 p).2 ps

/-- One engine operation, for stating frame properties over arbitrary
subsequent operation sequences. -/
inductive Op where
  | act : Int → (Nat → Nat) → Op
  | rst : (Nat → Nat) → Op

/-- Run one operation; a failed `step` assertion leaves the state as it
was. -/
def run_op (s : EnvState) (o : Op) : EnvState :=
  match o with
  | Op.act a picks =>
    match step s a picks with
    | some r => r.1
    | none => s
  | Op.rst picks => reset_fresh s picks

/-- Run a sequence of engine operations. -/
def run_ops (s : EnvState) : List Op → EnvState
  | [] => s
  | o :: os => run_ops (run_op s o) os

/-- The raw rank sum never exceeds the hand total: promotion only adds. -/
lemma sum_le_sum_hand (hand : List Nat) : hand.sum ≤ sum_hand hand := by
  unfold sum_hand
  split <;> omega

/-- An in-range `getD` lookup is a member of the list. -/
lemma getD_mem (l : List Nat) (n : Nat) (h : n < l.length) : l.getD n 0 ∈ l := by
  have he : l.getD n 0 = l.get ⟨n, h⟩ := by
    simp [List.getD, List.getElem?_eq_getElem h]
  rw [he]
  exact List.get_mem l n h

/-- The shoe composition a draw actually samples from (after the
replenishment check) is never empty. -/
lemma draw_pool_ne_nil (d : List Nat) :
    (if d.length ≤ 15 then deck3_fresh else d) ≠ [] := by
  split
  · decide
  · intro hnil
    simp_all [List.length_eq_zero]

/-- The drawn card is a member of the sampled composition. -/
lemma draw_card_mem (d : List Nat) (p : Nat) :
    (draw_card d p).1 ∈ (if d.length ≤ 15 then deck3_fresh else d) := by
  have hne := draw_pool_ne_nil d
  have hlen : 0 < (if d.length ≤ 15 then deck3_fresh else d).length :=
    List.length_pos.mpr hne
  exact getD_mem _ _ (Nat.mod_lt _ hlen)

/-- Drawing from a shoe of positive ranks yields a positive card and
leaves a shoe of positive ranks. -/
lemma draw_card_pos (d : List Nat) (p : Nat) (hd : ∀ x ∈ d, 1 ≤ x) :
    1 ≤ (draw_card d p).1 ∧ ∀ x ∈ (draw_card d p).2, 1 ≤ x := by
  have hpool : ∀ x ∈ (if d.length ≤ 15 then deck3_fresh else d), 1 ≤ x := by
    split
    · decide
    · exact hd
  refine ⟨hpool _ (draw_card_mem d p), ?_⟩
  intro x hx
  exact hpool x (List.mem_of_mem_erase hx)

/-- After any single draw at least 15 cards remain in the shoe. -/
lemma draw_card_len (d : List Nat) (p : Nat) :
    15 ≤ (draw_card d p).2.length := by
  have hmem := draw_card_mem d p
  show 15 ≤ ((if d.length ≤ 15 then deck3_fresh else d).erase (draw_card d p).1).length
  rw [List.length_erase_of_mem hmem]
  by_cases h15 : d.length ≤ 15
  · rw [if_pos h15]
    decide
  · rw [if_neg h15]
    omega

/-- Once the dealer total is at least 17, the loop does nothing for any
fuel. -/
lemma dealer_play_done (dealer deck3 : List Nat) (picks : Nat → Nat) (i : Nat)
    (h : ¬ sum_hand dealer < 17) (f : Nat) :
    dealer_play f dealer deck3 picks i = (dealer, deck3) := by
  cases f with
  | zero => rfl
  | succ g => simp [dealer_play, h]

/-- When the shoe holds only positive ranks and the fuel covers the gap to
17 in raw-sum units, the dealer loop reaches a total of at least 17 and
adding fuel does not change its result. -/
lemma dealer_play_sufficient (fuel : Nat) :
    ∀ (dealer deck3 : List Nat) (picks : Nat → Nat) (i : Nat),
      (∀ x ∈ deck3, 1 ≤ x) → 17 ≤ dealer.sum + fuel →
      17 ≤ sum_hand (dealer_play fuel dealer deck3 picks i).1 ∧
      ∀ g, dealer_play (fuel + g) dealer deck3 picks i =
        dealer_play fuel dealer deck3 picks i := by
  induction fuel with
  | zero =>
    intro dealer deck3 picks i _ hsum
    have hsh := sum_le_sum_hand dealer
    have h17 : ¬ sum_hand dealer < 17 := by omega
    constructor
    · rw [dealer_play_done dealer deck3 picks i h17 0]
      show 17 ≤ sum_hand dealer
      omega
    · intro g
      rw [dealer_play_done dealer deck3 picks i h17,
        dealer_play_done dealer deck3 picks i h17]
  | succ f ih =>
    intro dealer deck3 picks i hd hsum
    by_cases hc : sum_hand dealer < 17
    · have hdraw := draw_card_pos deck3 (picks i) hd
      have hstep : ∀ g, dealer_play (f + 1 + g) dealer deck3 picks i =
          dealer_play (f + g) (dealer ++ [(draw_card deck3 (picks i)).1])
            (draw_card deck3 (picks i)).2 picks (i + 1) := by
        intro g
        have : f + 1 + g = (f + g) + 1 := by omega
        rw [this]
        simp only [dealer_play, hc, if_true]
      have hsum2 : 17 ≤ (dealer ++ [(draw_card deck3 (picks i)).1]).sum + f := by
        simp only [List.sum_append, List.sum_cons, List.sum_nil]
        omega
      have ihres := ih (dealer ++ [(draw_card deck3 (picks i)).1])
        (draw_card deck3 (picks i)).2 picks (i + 1) hdraw.2 hsum2
      constructor
      · have h0 := hstep 0
        simp only [Nat.add_zero] at h0
        rw [h0]
        exact ihres.1
      · intro g
        rw [hstep g]
        have h0 := hstep 0
        simp only [Nat.add_zero] at h0
        rw [h0]
        exact ihres.2 g
    · constructor
      · rw [dealer_play_done dealer deck3 picks i hc]
        show 17 ≤ sum_hand dealer
        omega
      · intro g
        rw [dealer_play_done dealer deck3 picks i hc,
          dealer_play_done dealer deck3 picks i hc]

/-- Remaining shoe size after a draw sequence: once a draw has happened,
at least 15 cards always remain. -/
lemma draw_seq_len (ps : List Nat) :
    ∀ d : List Nat, 15 ≤ d.length → 15 ≤ (draw_seq d ps).length := by
  induction ps with
  | nil =>
    intro d hd
    exact hd
  | cons p ps ih =>
    intro d _
    show 15 ≤ (draw_seq (draw_card d p).2 ps).length
    exact ih _ (draw_card_len d p)

/-- The comparison result is always one of 1, 0, -1. -/
lemma cmp_cases (a b : Nat) : cmp a b = 1 ∨ cmp a b = 0 ∨ cmp a b = -1 := by
  unfold cmp
  rcases Nat.lt_trichotomy a b with h | h | h
  · right; right
    rw [if_neg (by omega), if_pos h]
    norm_num
  · right; left
    rw [if_neg (by omega), if_neg (by omega)]
    norm_num
  · left
    rw [if_pos h, if_neg (by omega)]
    norm_num

/-- C5: `usable_ace h` holds exactly when the hand contains an ace (rank 1)
and the raw sum plus 10 stays within 21; when it holds, `sum_hand h` is the
raw sum plus exactly 10 (so only one ace is ever counted as 11, however
many the hand contains) and never exceeds 21; otherwise `sum_hand h` is the
raw sum. -/
theorem usable_ace_sum_hand_spec (h : List Nat) :
    (usable_ace h = true ↔ (1 ∈ h ∧ h.sum + 10 ≤ 21)) ∧
    (usable_ace h = true → sum_hand h = h.sum + 10 ∧ sum_hand h ≤ 21) ∧
    (usable_ace h = false → sum_hand h = h.sum) := by
  refine ⟨by simp [usable_ace], ?_, ?_⟩
  · intro hu
    have hb : 1 ∈ h ∧ h.sum + 10 ≤ 21 := by simpa [usable_ace] using hu
    have he : sum_hand h = h.sum + 10 := by simp [sum_hand, hu]
    exact ⟨he, by omega⟩
  · intro hu
    simp [sum_hand, hu]

/-- Witness for C5 at the concrete hand [1, 5]. -/
theorem usable_ace_sum_hand_spec_witness :
    sum_hand [1, 5] = [1, 5].sum + 10 ∧ sum_hand [1, 5] ≤ 21 :=
  (usable_ace_sum_hand_spec [1, 5]).2.1 (by decide)

/-- C6: `is_bust h` holds exactly when the hand total exceeds 21; a busted
hand scores 0, an unbusted one scores its total, and a score never exceeds
21. -/
theorem is_bust_score_spec (h : List Nat) :
    (is_bust h = true ↔ 21 < sum_hand h) ∧
    (is_bust h = true → score h = 0) ∧
    (is_bust h = false → score h = sum_hand h) ∧
    score h ≤ 21 := by
  refine ⟨by simp [is_bust], ?_, ?_, ?_⟩
  · intro hb
    simp [score, hb]
  · intro hb
    simp [score, hb]
  · by_cases hb : is_bust h = true
    · simp [score, hb]
    · have hle : ¬ 21 < sum_hand h := by simpa [is_bust] using hb
      simp [score, hb]
      omega

/-- Witness for C6 at the concrete busted hand [10, 10, 5]. -/
theorem is_bust_score_spec_witness : score [10, 10, 5] = 0 :=
  (is_bust_score_spec [10, 10, 5]).2.1 (by decide)

/-- C7: `is_natural h` holds exactly when the hand consists of precisely
the two cards 1 and 10 in either order; in particular it accepts [1, 10]
and [10, 1] and rejects [1, 10, 1] and [5, 6]. -/
theorem is_natural_spec :
    (∀ h : List Nat, is_natural h = true ↔ (h = [1, 10] ∨ h = [10, 1])) ∧
    is_natural [1, 10] = true ∧ is_natural [10, 1] = true ∧
    is_natural [1, 10, 1] = false ∧ is_natural [5, 6] = false := by
  refine ⟨?_, by decide, by decide, by decide, by decide⟩
  intro h
  constructor
  · intro hn
    have hsort : h.insertionSort (· ≤ ·) = [1, 10] := by
      simpa [is_natural] using hn
    have hlen : h.length = 2 := by
      have hl := List.length_insertionSort (· ≤ ·) h
      rw [hsort] at hl
      simpa using hl.symm
    cases h with
    | nil => simp at hlen
    | cons x t =>
      cases t with
      | nil => simp at hlen
      | cons y u =>
        cases u with
        | cons z v => simp at hlen
        | nil =>
          have h2 : (if x ≤ y then [x, y] else [y, x]) = [1, 10] := by
            rw [← hsort]
            simp [List.insertionSort, List.orderedInsert]
          by_cases hxy : x ≤ y
          · rw [if_pos hxy] at h2
            simp only [List.cons.injEq, and_true] at h2
            left
            rw [h2.1, h2.2]
          · rw [if_neg hxy] at h2
            simp only [List.cons.injEq, and_true] at h2
            right
            rw [h2.1, h2.2]
  · intro hc
    rcases hc with rfl | rfl <;> decide

/-- C8: with any action value outside {0, 1, 2} the precondition check of
`step` fails before anything happens: no hand or shoe is touched and no
card is drawn, modelled by the `none` result with the state passed along
unchanged. -/
theorem step_invalid_action_spec (s : EnvState) (a : Int) (picks : Nat → Nat)
    (h0 : a ≠ 0) (h1 : a ≠ 1) (h2 : a ≠ 2) : step s a picks = none := by
  have hrange : ¬ (0 ≤ a ∧ a < 3) := by omega
  simp [step, hrange]

/-- Witness for C8 at the concrete action 5. -/
theorem step_invalid_action_spec_witness :
    step ⟨false, [1, 10], [5, 9], deck3_fresh⟩ 5 (fun _ => 0) = none :=
  step_invalid_action_spec ⟨false, [1, 10], [5, 9], deck3_fresh⟩ 5 (fun _ => 0)
    (by decide) (by decide) (by decide)

/-- C3: `step` on HIT (action 1) appends exactly the one drawn card to the
player's hand and leaves the dealer's hand untouched (the dealer draws
nothing); the round is done with reward -1 exactly when the grown hand is
bust, and otherwise continues with reward 0. -/
theorem step_hit_spec (s : EnvState) (picks : Nat → Nat) :
    step s 1 picks =
      some ({ s with player := s.player ++ [(draw_card s.deck3 (picks 0)).1],
                     deck3 := (draw_card s.deck3 (picks 0)).2 },
        if is_bust (s.player ++ [(draw_card s.deck3 (picks 0)).1]) then -1 else 0,
        is_bust (s.player ++ [(draw_card s.deck3 (picks 0)).1])) ∧
    ({ s with player := s.player ++ [(draw_card s.deck3 (picks 0)).1],
              deck3 := (draw_card s.deck3 (picks 0)).2 } : EnvState).dealer =
      s.dealer := by
  refine ⟨?_, rfl⟩
  by_cases hb : is_bust (s.player ++ [(draw_card s.deck3 (picks 0)).1]) = true
  · simp [step, hb]
  · simp [step, hb]

/-- C1: `step` on STAND (action 0) plays the dealer out to a total of at
least 17, ends the round, and pays `cmp(score(player), score(dealer))`,
upgraded to exactly 3/2 precisely when the natural flag is set, the
player's hand is a natural and the comparison is a win; so with the
default flag the reward is never 3/2. -/
theorem step_stand_spec (s : EnvState) (picks : Nat → Nat)
    (hd : ∀ x ∈ s.deck3, 1 ≤ x) :
    step s 0 picks =
      some ({ s with dealer := (dealer_play 17 s.dealer s.deck3 picks 0).1,
                     deck3 := (dealer_play 17 s.dealer s.deck3 picks 0).2 },
        (if s.natural = true ∧ is_natural s.player = true ∧
            cmp (score s.player)
              (score (dealer_play 17 s.dealer s.deck3 picks 0).1) = 1
          then (3 : ℚ) / 2
          else cmp (score s.player)
            (score (dealer_play 17 s.dealer s.deck3 picks 0).1)),
        true) ∧
    17 ≤ sum_hand (dealer_play 17 s.dealer s.deck3 picks 0).1 ∧
    ((if s.natural = true ∧ is_natural s.player = true ∧
          cmp (score s.player)
            (score (dealer_play 17 s.dealer s.deck3 picks 0).1) = 1
        then (3 : ℚ) / 2
        else cmp (score s.player)
          (score (dealer_play 17 s.dealer s.deck3 picks 0).1)) = 3 / 2 ↔
      (s.natural = true ∧ is_natural s.player = true ∧
        cmp (score s.player)
          (score (dealer_play 17 s.dealer s.deck3 picks 0).1) = 1)) := by
  refine ⟨?_, ?_, ?_⟩
  · simp [step]
  · exact (dealer_play_sufficient 17 s.dealer s.deck3 picks 0 hd (by omega)).1
  · constructor
    · intro hv
      by_cases hcond : s.natural = true ∧ is_natural s.player = true ∧
          cmp (score s.player)
            (score (dealer_play 17 s.dealer s.deck3 picks 0).1) = 1
      · exact hcond
      · rw [if_neg hcond] at hv
        rcases cmp_cases (score s.player)
            (score (dealer_play 17 s.dealer s.deck3 picks 0).1) with hc | hc | hc <;>
          rw [hc] at hv <;> norm_num at hv
    · intro hcond
      rw [if_pos hcond]

/-- Witness for C1: the dealer finishes on at least 17 from the concrete
state with dealer hand [10, 6] and a fresh shoe. -/
theorem step_stand_spec_witness :
    17 ≤ sum_hand (dealer_play 17 [10, 6] deck3_fresh (fun _ => 0) 0).1 :=
  (step_stand_spec ⟨true, [1, 10], [10, 6], deck3_fresh⟩ (fun _ => 0)
    (by decide)).2.1

/-- C2: `step` on DOUBLE (action 2) appends exactly one drawn card to the
player's hand with no bust short-circuit, plays the dealer out to a total
of at least 17, ends the round, and pays exactly twice the comparison of
the scores; the payout is never the 3/2 natural bonus. -/
theorem step_double_spec (s : EnvState) (picks : Nat → Nat)
    (hd : ∀ x ∈ s.deck3, 1 ≤ x) :
    step s 2 picks =
      some ({ s with
          player := s.player ++ [(draw_card s.deck3 (picks 0)).1],
          dealer :=
            (dealer_play 17 s.dealer (draw_card s.deck3 (picks 0)).2 picks 1).1,
          deck3 :=
            (dealer_play 17 s.dealer (draw_card s.deck3 (picks 0)).2 picks 1).2 },
        2 * cmp (score (s.player ++ [(draw_card s.deck3 (picks 0)).1]))
          (score (dealer_play 17 s.dealer (draw_card s.deck3 (picks 0)).2 picks 1).1),
        true) ∧
    17 ≤ sum_hand (dealer_play 17 s.dealer (draw_card s.deck3 (picks 0)).2 picks 1).1 ∧
    2 * cmp (score (s.player ++ [(draw_card s.deck3 (picks 0)).1]))
        (score (dealer_play 17 s.dealer (draw_card s.deck3 (picks 0)).2 picks 1).1) ≠
      3 / 2 := by
  refine ⟨?_, ?_, ?_⟩
  · simp [step]
  · exact (dealer_play_sufficient 17 s.dealer (draw_card s.deck3 (picks 0)).2
      picks 1 (draw_card_pos s.deck3 (picks 0) hd).2 (by omega)).1
  · rcases cmp_cases (score (s.player ++ [(draw_card s.deck3 (picks 0)).1]))
        (score (dealer_play 17 s.dealer (draw_card s.deck3 (picks 0)).2 picks 1).1)
      with hc | hc | hc <;> rw [hc] <;> norm_num

/-- Witness for C2: the dealer finishes on at least 17 from a concrete
state with a natural player hand. -/
theorem step_double_spec_witness :
    17 ≤ sum_hand (dealer_play 17 [10, 6]
      (draw_card deck3_fresh 0).2 (fun _ => 0) 1).1 :=
  (step_double_spec ⟨true, [1, 10], [10, 6], deck3_fresh⟩ (fun _ => 0)
    (by decide)).2.1

/-- C9: from any dealer hand and any shoe of positive ranks, the dealer
loop reaches a total of at least 17 within 17 draws (each drawn rank is at
least 1, so the raw sum strictly increases), and giving the loop any more
fuel changes nothing: the while loop terminates. -/
theorem dealer_play_terminates_spec (dealer deck3 : List Nat)
    (picks : Nat → Nat) (i : Nat) (hd : ∀ x ∈ deck3, 1 ≤ x) :
    17 ≤ sum_hand (dealer_play 17 dealer deck3 picks i).1 ∧
    ∀ g, dealer_play (17 + g) dealer deck3 picks i =
      dealer_play 17 dealer deck3 picks i :=
  dealer_play_sufficient 17 dealer deck3 picks i hd (by omega)

/-- Witness for C9 from the empty dealer hand and the fresh shoe. -/
theorem dealer_play_terminates_spec_witness :
    17 ≤ sum_hand (dealer_play 17 [] deck3_fresh (fun _ => 0) 0).1 :=
  (dealer_play_terminates_spec [] deck3_fresh (fun _ => 0) 0 (by decide)).1

/-- C4: a draw that starts with at most 15 cards left behaves exactly as a
draw from the fresh three-deck shoe (the composition is reset first); a
draw always leaves at least 15 cards behind (so it never fails for lack of
cards); and after any nonempty sequence of draws, from any starting shoe,
the remaining count is never 0. -/
theorem draw_card_shoe_spec (d : List Nat) (p : Nat) :
    (d.length ≤ 15 → draw_card d p = draw_card deck3_fresh p) ∧
    15 ≤ (draw_card d p).2.length ∧
    ∀ ps : List Nat, 0 < (draw_seq d (p :: ps)).length := by
  refine ⟨?_, draw_card_len d p, ?_⟩
  · intro h15
    unfold draw_card
    rw [if_pos h15, if_neg (by decide)]
  · intro ps
    have hlen := draw_seq_len ps (draw_card d p).2 (draw_card_len d p)
    show 0 < (draw_seq (draw_card d p).2 ps).length
    omega

/-- Witness for C4: drawing from a one-card shoe replenishes first. -/
theorem draw_card_shoe_spec_witness :
    draw_card [5] 0 = draw_card deck3_fresh 0 :=
  (draw_card_shoe_spec [5] 0).1 (by decide)

/-- C10: the snapshot is the value of the three lists at snapshot time;
after any sequence of later engine operations, restoring that snapshot
reinstates exactly the original player hand, dealer hand and shoe, and
taking a snapshot again returns the original snapshot — later mutation
cannot reach into a snapshot, which in this value-semantics embedding of
`deepcopy` holds by construction. -/
theorem get_state_snapshot_spec (s : EnvState) (ops : List Op) :
    get_state s = (s.player, s.dealer, s.deck3) ∧
    reset_with (run_ops s ops) (get_state s) =
      { run_ops s ops with
          player := s.player, dealer := s.dealer, deck3 := s.deck3 } ∧
    get_state (reset_with (run_ops s ops) (get_state s)) = get_state s :=
  ⟨rfl, rfl, rfl⟩

end BlackjackEnv
